import Mathlib

/-!
Shallow embedding of `performance_logger.py` (class `CentralizedLogger`),
the progress-tracking and checkpointing service of the BesideThePoint
repository.

Modelling choices, all taken from the source:
* The Python dict `self.progress_state = {'solutions': 0, 'trials_run': 0}`
  becomes the structure `ProgressState`; Python integers are unbounded, so
  its fields are `Int`.
* Probabilities are computed by Python true division; they are modelled as
  rationals (`ℚ`).
* The checkpoint file is modelled by its parse outcome (`FileContent`):
  absent, present but not valid JSON, or a parsed object with the two
  optional keys `count_solutions` / `count_run` (optional because
  `_load_progress` reads them with `data.get(key, 0)`).
* Every file or console side effect a method performs becomes an explicit
  `Event` in a returned trace, in program order.  All Python exception
  paths in the source are caught inside the methods (lines 36-39, 54-55,
  89-90), so every modelled operation is a total function.
* Wall-clock timestamps and thread scheduling are real-time aspects; the
  background `_logging_loop` is driven by an abstract finite schedule of
  per-iteration observations (`LoopTick`) covering every way the loop can
  exit.
-/

namespace PerformanceLogger

/-- In-memory aggregate state, `self.progress_state` (source line 20). -/
structure ProgressState where
  solutions : Int
  trials_run : Int
deriving DecidableEq, Repr

/-- Default state installed by `__init__` (line 20) before any load. -/
def initialState : ProgressState := ⟨0, 0⟩

/-- The JSON object written by `_save_progress` (line 49) and read back by
`_load_progress` (lines 33-34): keys `count_solutions` and `count_run`. -/
structure CheckpointData where
  count_solutions : Option Int
  count_run : Option Int
deriving DecidableEq, Repr

/-- Serialization performed at line 49:
`data_to_save = {'count_solutions': solutions, 'count_run': trials_run}`. -/
def serializeState (s : ProgressState) : CheckpointData :=
  ⟨some s.solutions, some s.trials_run⟩

/-- Content of the progress file as seen by `os.path.exists` + `json.load`:
the path may be absent, hold text that is not valid JSON, or hold a parsed
JSON object. -/
inductive FileContent where
  | absent
  | unparseable
  | parsed (d : CheckpointData)
deriving DecidableEq, Repr

/-- One data line of the performance CSV (line 78), minus the wall-clock
timestamp (real time, not modelled).  `initial` records the `initial_log`
flag that selects the "Loaded" console message (lines 69-73). -/
structure MetricsRecord where
  trials : Int
  solutions : Int
  probability : ℚ
  initial : Bool
deriving DecidableEq, Repr

/-- Side effects of the methods, in program order.  `logInfo` / `logError` /
`logWarn` are the `logging.info` / `logging.error` / `logging.warning`
calls; `appendMetrics` is one append to the performance CSV (with its
console print); `saveCheckpoint` is one overwrite of the progress JSON. -/
inductive Event where
  | logInfo
  | logError
  | logWarn
  | appendMetrics (r : MetricsRecord)
  | saveCheckpoint (d : CheckpointData)
deriving DecidableEq, Repr

/-- Record built by `_log_performance_metrics` (lines 57-78):
`probability = solutions / trials if trials > 0 else 0` (line 62). -/
def log_performance_metrics (s : ProgressState) (initial_log : Bool) : MetricsRecord :=
  { trials := s.trials_run,
    solutions := s.solutions,
    probability := if s.trials_run > 0 then (s.solutions : ℚ) / (s.trials_run : ℚ) else 0,
    initial := initial_log }

/-- Method `_load_progress` (lines 27-44), run from `__init__`: starting
from the default state, overwrite both fields from the parsed file when the
file exists and parses (`data.get` supplies 0 for a missing key); on a
parse or read failure log an error and keep the default ("Starting
fresh"); on an absent path log an info message and keep the default.  In
every case it ends with the unconditional initial metrics append of
line 44 (`_log_performance_metrics(initial_log=True)`).  All exceptions
are caught (lines 36-39), so the function is total: it never raises. -/
def load_progress (file : FileContent) : ProgressState × List Event :=
  let loaded : ProgressState × List Event :=
    match file with
    | .parsed d => (⟨d.count_solutions.getD 0, d.count_run.getD 0⟩, [])
    | .unparseable => (initialState, [.logError])
    | .absent => (initialState, [.logInfo])
  (loaded.1, loaded.2 ++ [.appendMetrics (log_performance_metrics loaded.1 true)])

/-- Constructor `__init__` (lines 12-25): installs the default state and
then calls `_load_progress`; no other step touches the progress state or
performs metrics I/O. -/
def construct (file : FileContent) : ProgressState × List Event :=
  load_progress file

/-- Method `update_progress` (lines 92-99): early return when
`batch_trials == 0`, otherwise add both deltas under the lock.  The body
performs no file or console I/O, hence the always-empty event trace. -/
def update_progress (s : ProgressState) (batch_solutions batch_trials : Int) :
    ProgressState × List Event :=
  if batch_trials = 0 then (s, [])
  else (⟨s.solutions + batch_solutions, s.trials_run + batch_trials⟩, [])

/-- Run a sequence of `update_progress` calls from a starting state,
collecting the states and the concatenated event trace. -/
def run_updates (s : ProgressState) : List (Int × Int) → ProgressState × List Event
  | [] => (s, [])
  | c :: rest =>
    let r := update_progress s c.1 c.2
    let t := run_updates r.1 rest
    (t.1, r.2 ++ t.2)

/-- Method `get_final_probability` (lines 189-199): choose the denominator
`trials_for_calc` (line 195) and divide (lines 197-199). -/
def get_final_probability (total_trials : Int) (s : ProgressState) : ℚ :=
  let trials_for_calc : Int :=
    if s.trials_run ≥ total_trials ∧ total_trials > 0 then total_trials else s.trials_run
  if trials_for_calc > 0 then (s.solutions : ℚ) / (trials_for_calc : ℚ) else 0

/-- Outcome of `start` (lines 150-164). -/
inductive StartOutcome where
  | alreadyRunningWarn
  | targetReachedNoSpawn
  | spawnReporter
deriving DecidableEq, Repr

/-- Method `start` (lines 150-164): if the logger thread is already alive,
warn and return (lines 151-153); else if `trials_run >= total_trials`,
log and return without spawning (lines 156-160); else spawn the logging
thread (lines 162-164). -/
def start (thread_alive : Bool) (total_trials : Int) (s : ProgressState) : StartOutcome :=
  if thread_alive then .alreadyRunningWarn
  else if s.trials_run ≥ total_trials then .targetReachedNoSpawn
  else .spawnReporter

/-- Crash and fault model for `_save_progress` (lines 47-55).  The source
opens `self.progress_filename` itself with mode `'w'` (a truncating open)
and `json.dump`s into it; there is no temporary file and no rename.
`ok`: open and write both succeed.  `openFail`: `open` raises before
touching the file (e.g. permissions), leaving the previous content intact.
`midWrite`: a failure after the truncating open, so only a proper prefix
of the JSON object text reaches disk; no proper prefix of that text is
valid JSON, so the file is left unparseable. -/
inductive WriteFault where
  | ok
  | openFail
  | midWrite
deriving DecidableEq, Repr

/-- Method `_save_progress` (lines 47-55): serialize the state and write it
over the progress file.  Every exception is caught and logged
(lines 54-55), so the fault never propagates: the function is total and
returns the resulting file content plus the emitted log events. -/
def save_progress (s : ProgressState) (fault : WriteFault) (file : FileContent) :
    FileContent × List Event :=
  match fault with
  | .ok => (.parsed (serializeState s), [])
  | .openFail => (file, [.logError])
  | .midWrite => (.unparseable, [.logError])

/-- One iteration of the `while` loop of `_logging_loop` (lines 106-142),
as observed from the shared state, the stop event and the clock:
`trials_at_check` is the locked snapshot of line 109; `stop_during_sleep`
is the line 125 check after the interruptible wait; `log_elapsed` and
`save_elapsed` are the interval predicates of lines 131 and 138;
`observed_state` is the state read under the lock by the in-loop
`_log_performance_metrics` / `_save_progress` calls of that iteration. -/
structure LoopTick where
  trials_at_check : Int
  stop_during_sleep : Bool
  log_elapsed : Bool
  save_elapsed : Bool
  observed_state : ProgressState
deriving DecidableEq, Repr

/-- The two unconditional final actions of `_logging_loop` (lines 146-147):
one metrics append and one checkpoint save of the state at exit. -/
def finalActions (s : ProgressState) : List Event :=
  [.appendMetrics (log_performance_metrics s false), .saveCheckpoint (serializeState s)]

/-- Thread body `_logging_loop` (lines 101-148), driven by a finite
schedule of ticks.  An empty schedule means the stop event was observed
set at the `while` condition (line 106).  Otherwise the head tick either
breaks — target reached at the line 112 check, or stop observed after the
wait (lines 125-126) — or performs the due interval log and save and
continues.  The guards at lines 133 and 140 reuse `trials_at_check`,
which on a continuing tick is already known `< total_trials`, so they
hold whenever the interval is due.  `exit_state` is the progress state
read by the final log and save of lines 146-147, which run on every exit
path, after the loop. -/
def logging_loop (total_trials : Int) (exit_state : ProgressState) :
    List LoopTick → List Event
  | [] => finalActions exit_state
  | t :: rest =>
    if t.trials_at_check ≥ total_trials then
      finalActions exit_state
    else if t.stop_during_sleep then
      finalActions exit_state
    else
      (if t.log_elapsed then
        [.appendMetrics (log_performance_metrics t.observed_state false)] else [])
      ++ (if t.save_elapsed then [.saveCheckpoint (serializeState t.observed_state)] else [])
      ++ logging_loop total_trials exit_state rest

/-- Invariant claimed for `ProgressState` in the data model. -/
def StateInv (s : ProgressState) : Prop :=
  0 ≤ s.solutions ∧ s.solutions ≤ s.trials_run

/-- Recognizer for metrics-append events. -/
def isAppend : Event → Bool
  | .appendMetrics _ => true
  | _ => false

/-- Property of a metrics record: its probability field is its own
solutions over its own trials (0 when no trials ran). -/
def RecordProbOk (r : MetricsRecord) : Prop :=
  r.probability = if r.trials > 0 then (r.solutions : ℚ) / (r.trials : ℚ) else 0

/-- Characterization of `get_final_probability` by the three cases of the
conditional at line 195 of the source. -/
theorem get_final_probability_cases (total : Int) (s : ProgressState) :
    get_final_probability total s =
      if s.trials_run ≥ total ∧ total > 0 then (s.solutions : ℚ) / (total : ℚ)
      else if s.trials_run > 0 then (s.solutions : ℚ) / (s.trials_run : ℚ)
      else 0 := by
  simp only [get_final_probability]
  split_ifs with h1 h2 h3 <;> try rfl
  all_goals exfalso; omega

/-- The event trace of a single `update_progress` call is empty: the method
performs no file or console I/O on either branch. -/
theorem update_progress_events (s : ProgressState) (a b : Int) :
    (update_progress s a b).2 = [] := by
  unfold update_progress
  split <;> rfl

/-- On a nonzero trial count, `update_progress` adds both deltas. -/
theorem update_progress_pos (s : ProgressState) (a b : Int) (hb : b ≠ 0) :
    (update_progress s a b).1 = ⟨s.solutions + a, s.trials_run + b⟩ := by
  unfold update_progress
  rw [if_neg hb]

/-- A whole sequence of `update_progress` calls emits no I/O events. -/
theorem run_updates_events (calls : List (Int × Int)) :
    ∀ s : ProgressState, (run_updates s calls).2 = [] := by
  induction calls with
  | nil => intro s; rfl
  | cons c rest ih =>
    intro s
    simp [run_updates, update_progress_events, ih]

/-- Aggregation is exact: any sequence of calls with positive trial counts
adds the componentwise sums to the starting state. -/
theorem run_updates_sum (calls : List (Int × Int)) :
    ∀ s : ProgressState, (∀ c ∈ calls, 0 < c.2) →
      (run_updates s calls).1 =
        ⟨s.solutions + (calls.map Prod.fst).sum,
         s.trials_run + (calls.map Prod.snd).sum⟩ := by
  induction calls with
  | nil =>
    intro s _
    simp [run_updates]
  | cons c rest ih =>
    intro s h
    have hc : c.2 ≠ 0 := by
      have := h c (List.mem_cons_self c rest)
      omega
    have hrest : ∀ x ∈ rest, 0 < x.2 := fun x hx => h x (List.mem_cons_of_mem c hx)
    simp only [run_updates]
    rw [update_progress_pos s c.1 c.2 hc, ih _ hrest]
    simp only [List.map_cons, List.sum_cons, ProgressState.mk.injEq]
    constructor <;> ring

/-- Probability field of any record built by `_log_performance_metrics`,
stated over the record's own fields. -/
theorem log_performance_metrics_probability (s : ProgressState) (b : Bool) :
    RecordProbOk (log_performance_metrics s b) := rfl

/-- C1: `get_final_probability` returns `solutions / total_trials` when
`trials_run ≥ total_trials` and `total_trials > 0`; otherwise
`solutions / trials_run` when `trials_run > 0`; otherwise `0`.  In
particular with target 100, 120 trials run and 60 solutions it returns
0.60 (the denominator is the target, not the overshoot count). -/
theorem get_final_probability_spec (total : Int) (s : ProgressState) :
    (s.trials_run ≥ total → total > 0 →
      get_final_probability total s = (s.solutions : ℚ) / (total : ℚ)) ∧
    (¬(s.trials_run ≥ total ∧ total > 0) → s.trials_run > 0 →
      get_final_probability total s = (s.solutions : ℚ) / (s.trials_run : ℚ)) ∧
    (¬(s.trials_run ≥ total ∧ total > 0) → ¬s.trials_run > 0 →
      get_final_probability total s = 0) ∧
    get_final_probability 100 ⟨60, 120⟩ = 3/5 := by
  refine ⟨fun h1 h2 => ?_, fun h1 h2 => ?_, fun h1 h2 => ?_, ?_⟩
  · rw [get_final_probability_cases, if_pos ⟨h1, h2⟩]
  · rw [get_final_probability_cases, if_neg h1, if_pos h2]
  · rw [get_final_probability_cases, if_neg h1, if_neg h2]
  · rw [get_final_probability_cases]
    norm_num

/-- Witness for C1: the target-reached branch at the spec's example. -/
theorem get_final_probability_spec_witness :
    get_final_probability 100 ⟨60, 120⟩ = ((60 : Int) : ℚ) / ((100 : Int) : ℚ) :=
  (get_final_probability_spec 100 ⟨60, 120⟩).1 (by decide) (by decide)

/-- C4: loading at construction never raises (the embedded `load_progress`
is total, every exception path of the source being caught in
`_load_progress` itself): an absent path leaves the default `(0,0)` state
with an informational message, and an existing but unparseable file
leaves `(0,0)` and emits the recoverable "Starting fresh" diagnostic —
the source logs it via `logging.error` — before the usual loaded
snapshot. -/
theorem load_progress_fallbacks :
    (load_progress .absent).1 = initialState ∧
    (load_progress .unparseable).1 = initialState ∧
    (load_progress .unparseable).2 =
      [Event.logError,
       Event.appendMetrics (log_performance_metrics initialState true)] ∧
    (load_progress .absent).2 =
      [Event.logInfo,
       Event.appendMetrics (log_performance_metrics initialState true)] :=
  ⟨rfl, rfl, rfl, rfl⟩

/-- C9: save-then-load round trip: loading the file produced by a
successful save returns a state equal to the original, whatever the
previous file content was. -/
theorem save_load_round_trip (s : ProgressState) (file : FileContent) :
    (load_progress (save_progress s .ok file).1).1 = s := by
  cases s
  rfl

/-- C3 counterexample: `_save_progress` opens the checkpoint path itself
with the truncating mode `'w'` — no temporary file, no rename — so a
write failure after the open leaves the file unparseable.  Concretely:
the file holds the valid checkpoint `(1,2)`; a save of state `(3,4)`
fails mid-write; afterwards the file no longer parses and a reload
returns the default `(0,0)` instead of the previously saved `(1,2)`.
The previously saved checkpoint did not remain valid: the claimed write
atomicity fails on the code. -/
theorem save_progress_midwrite_corrupts :
    (load_progress (FileContent.parsed ⟨some 1, some 2⟩)).1 = ProgressState.mk 1 2 ∧
    (save_progress ⟨3, 4⟩ .midWrite (.parsed ⟨some 1, some 2⟩)).1 = .unparseable ∧
    (load_progress (save_progress ⟨3, 4⟩ .midWrite (.parsed ⟨some 1, some 2⟩)).1).1
      = ProgressState.mk 0 0 ∧
    decide (ProgressState.mk 0 0 = ProgressState.mk 1 2) = false :=
  ⟨rfl, rfl, rfl, rfl⟩

/-- C3 amended: `_save_progress` overwrites the checkpoint path in place.
On success the file holds exactly the serialized state; if the open
itself fails the previous content is untouched; if the write fails after
the truncating open the file is left unparseable, and a later load falls
back to the default state.  In every fault case the exception is caught
and logged — it never propagates to the caller. -/
theorem save_progress_fault_behavior (s : ProgressState) (file : FileContent) :
    (save_progress s .ok file).1 = .parsed (serializeState s) ∧
    (save_progress s .ok file).2 = [] ∧
    (save_progress s .openFail file).1 = file ∧
    (save_progress s .openFail file).2 = [Event.logError] ∧
    (save_progress s .midWrite file).1 = .unparseable ∧
    (save_progress s .midWrite file).2 = [Event.logError] ∧
    (load_progress (save_progress s .midWrite file).1).1 = initialState :=
  ⟨rfl, rfl, rfl, rfl, rfl, rfl, rfl⟩

/-- C5: `update_progress` is pure in-memory aggregation: a call with
`batch_trials = 0` (such as `update_progress s 5 0`) leaves the state
unchanged, no call ever emits a file or console I/O event, and any
sequence of calls with positive trial counts adds the componentwise sums
to the starting state. -/
theorem update_progress_spec (s : ProgressState) (calls : List (Int × Int)) :
    update_progress s 5 0 = (s, []) ∧
    (run_updates s calls).2 = [] ∧
    ((∀ c ∈ calls, 0 < c.2) →
      (run_updates s calls).1 =
        ⟨s.solutions + (calls.map Prod.fst).sum,
         s.trials_run + (calls.map Prod.snd).sum⟩) :=
  ⟨rfl, run_updates_events calls s, run_updates_sum calls s⟩

/-- Witness for C5: two batches from the zero state. -/
theorem update_progress_spec_witness :
    (run_updates ⟨0, 0⟩ [(1, 2), (0, 3)]).1 = ProgressState.mk 1 5 :=
  ((update_progress_spec ⟨0, 0⟩ [(1, 2), (0, 3)]).2.2 (by decide)).trans (by decide)

/-- C6: the invariant `0 ≤ solutionsCount ≤ trialsRun` holds for the
default initial state and is preserved by every `update_progress` call
whose arguments satisfy `0 ≤ batch_solutions ≤ batch_trials`. -/
theorem state_invariant_preserved (s : ProgressState) (a b : Int) :
    StateInv initialState ∧
    (StateInv s → 0 ≤ a → a ≤ b → StateInv (update_progress s a b).1) := by
  constructor
  · exact ⟨le_refl 0, le_refl 0⟩
  · intro hs ha hab
    obtain ⟨h1, h2⟩ := hs
    by_cases hb : b = 0
    · rw [update_progress, if_pos hb]
      exact ⟨h1, h2⟩
    · rw [update_progress, if_neg hb]
      refine ⟨?_, ?_⟩
      · show (0 : Int) ≤ s.solutions + a
        omega
      · show s.solutions + a ≤ s.trials_run + b
        omega

/-- Witness for C6: preservation at a concrete state and batch. -/
theorem state_invariant_preserved_witness :
    StateInv (update_progress ⟨1, 2⟩ 3 4).1 :=
  (state_invariant_preserved ⟨1, 2⟩ 3 4).2 ⟨by decide, by decide⟩ (by decide) (by decide)

/-- C7: construction loads the checkpoint, initializes the state from it,
and then performs exactly one metrics append — the "loaded" snapshot of
the just-initialized state — as the last construction event, for every
file content (absent, unparseable or parsed), before any Reporter
exists. -/
theorem construct_loaded_snapshot (file : FileContent) :
    ∃ pre : List Event,
      (construct file).2 =
        pre ++ [Event.appendMetrics (log_performance_metrics (construct file).1 true)] ∧
      (construct file).2.countP isAppend = 1 := by
  cases file with
  | absent => exact ⟨[Event.logInfo], rfl, rfl⟩
  | unparseable => exact ⟨[Event.logError], rfl, rfl⟩
  | parsed d => exact ⟨[], rfl, rfl⟩

/-- Witness for C7 at the absent-file input. -/
theorem construct_loaded_snapshot_witness :
    ∃ pre : List Event,
      (construct FileContent.absent).2 =
        pre ++ [Event.appendMetrics
          (log_performance_metrics (construct FileContent.absent).1 true)] ∧
      (construct FileContent.absent).2.countP isAppend = 1 :=
  construct_loaded_snapshot FileContent.absent

/-- C8: `start` warns and spawns nothing when the logger thread is already
alive, spawns nothing when `trials_run ≥ total_trials`, and spawns the
Reporter otherwise; in particular with the loaded checkpoint `(50,100)`
and target 100 it is a no-op and `get_final_probability` is already
`0.5`. -/
theorem start_spec (alive : Bool) (total : Int) (s : ProgressState) :
    (alive = true → start alive total s = .alreadyRunningWarn) ∧
    (alive = false → s.trials_run ≥ total → start alive total s = .targetReachedNoSpawn) ∧
    (alive = false → s.trials_run < total → start alive total s = .spawnReporter) ∧
    (start false 100 ⟨50, 100⟩ = .targetReachedNoSpawn ∧
      get_final_probability 100 ⟨50, 100⟩ = 1/2) := by
  refine ⟨fun h => ?_, fun h1 h2 => ?_, fun h1 h2 => ?_, by decide, ?_⟩
  · simp [start, h]
  · simp [start, h1, h2]
  · simp [start, h1, not_le.mpr h2]
  · rw [get_final_probability_cases]
    norm_num

/-- Witness for C8: the three branches at concrete inputs. -/
theorem start_spec_witness :
    start true 100 ⟨0, 0⟩ = StartOutcome.alreadyRunningWarn ∧
    start false 100 ⟨50, 100⟩ = StartOutcome.targetReachedNoSpawn ∧
    start false 100 ⟨0, 0⟩ = StartOutcome.spawnReporter :=
  ⟨(start_spec true 100 ⟨0, 0⟩).1 rfl,
   (start_spec false 100 ⟨50, 100⟩).2.1 rfl (by decide),
   (start_spec false 100 ⟨0, 0⟩).2.2.1 rfl (by decide)⟩

/-- C2: every exit of the Reporter loop — stop already set at the `while`
check, target reached at the trials check, or stop observed after the
interruptible wait — runs the finalization exactly once: the event trace
always ends with exactly one final metrics append and one final
checkpoint save of the state at exit; and when no log or save interval
ever elapsed, those two finalization events are the entire trace. -/
theorem logging_loop_finalizes (total : Int) (es : ProgressState) (ticks : List LoopTick) :
    (∃ pre : List Event, logging_loop total es ticks = pre ++ finalActions es) ∧
    ((∀ t ∈ ticks, t.log_elapsed = false ∧ t.save_elapsed = false) →
      logging_loop total es ticks = finalActions es) := by
  induction ticks with
  | nil => exact ⟨⟨[], rfl⟩, fun _ => rfl⟩
  | cons t rest ih =>
    constructor
    · by_cases h1 : t.trials_at_check ≥ total
      · exact ⟨[], by simp [logging_loop, h1]⟩
      · by_cases h2 : t.stop_during_sleep = true
        · exact ⟨[], by simp [logging_loop, h1, h2]⟩
        · obtain ⟨pre, hpre⟩ := ih.1
          refine ⟨((if t.log_elapsed then
              [Event.appendMetrics (log_performance_metrics t.observed_state false)]
              else [])
            ++ (if t.save_elapsed then
              [Event.saveCheckpoint (serializeState t.observed_state)] else [])) ++ pre, ?_⟩
          simp [logging_loop, if_neg h1, if_neg h2, hpre, List.append_assoc]
    · intro hq
      have hql : t.log_elapsed = false := (hq t (List.mem_cons_self t rest)).1
      have hqs : t.save_elapsed = false := (hq t (List.mem_cons_self t rest)).2
      have hrest := ih.2 (fun x hx => hq x (List.mem_cons_of_mem t hx))
      by_cases h1 : t.trials_at_check ≥ total
      · simp [logging_loop, h1]
      · by_cases h2 : t.stop_during_sleep = true
        · simp [logging_loop, h1, h2]
        · simp [logging_loop, h1, h2, hql, hqs, hrest]

/-- Witness for C2: a one-tick quiet run still produces exactly the two
finalization events. -/
theorem logging_loop_finalizes_witness :
    logging_loop 100 ⟨10, 20⟩ [⟨5, false, false, false, ⟨10, 20⟩⟩] = finalActions ⟨10, 20⟩ :=
  (logging_loop_finalizes 100 ⟨10, 20⟩ [⟨5, false, false, false, ⟨10, 20⟩⟩]).2 (by decide)

/-- C10: every metrics record ever appended — the loaded snapshot at
construction, the in-loop interval logs and the final log — carries
probability `solutions / trialsRun` of its own snapshot (0 when no trials
ran): the denominator is always the trials actually run, never the
target; in particular at state `(60,120)` with target 100 the appended
probability is `1/2` while `get_final_probability` reports `3/5`. -/
theorem appended_probability_uses_trials_run :
    (∀ (s : ProgressState) (b : Bool), RecordProbOk (log_performance_metrics s b)) ∧
    (∀ (file : FileContent) (r : MetricsRecord),
      Event.appendMetrics r ∈ (construct file).2 → RecordProbOk r) ∧
    (∀ (total : Int) (es : ProgressState) (ticks : List LoopTick) (r : MetricsRecord),
      Event.appendMetrics r ∈ logging_loop total es ticks → RecordProbOk r) ∧
    ((log_performance_metrics ⟨60, 120⟩ false).probability = 1/2 ∧
      get_final_probability 100 ⟨60, 120⟩ = 3/5) := by
  refine ⟨log_performance_metrics_probability, ?_, ?_,
    by norm_num [log_performance_metrics],
    by rw [get_final_probability_cases]; norm_num⟩
  · intro file r hr
    cases file with
    | absent =>
      simp [construct, load_progress] at hr
      subst hr
      exact log_performance_metrics_probability initialState true
    | unparseable =>
      simp [construct, load_progress] at hr
      subst hr
      exact log_performance_metrics_probability initialState true
    | parsed d =>
      simp [construct, load_progress] at hr
      subst hr
      exact log_performance_metrics_probability _ true
  · intro total es ticks r
    induction ticks with
    | nil =>
      intro hr
      simp [logging_loop, finalActions] at hr
      subst hr
      exact log_performance_metrics_probability es false
    | cons t rest ih =>
      intro hr
      by_cases h1 : t.trials_at_check ≥ total
      · simp [logging_loop, h1, finalActions] at hr
        subst hr
        exact log_performance_metrics_probability es false
      · by_cases h2 : t.stop_during_sleep = true
        · simp [logging_loop, h1, h2, finalActions] at hr
          subst hr
          exact log_performance_metrics_probability es false
        · simp only [logging_loop, if_neg h1, if_neg h2, List.mem_append] at hr
          rcases hr with (hr | hr) | hr
          · by_cases h3 : t.log_elapsed = true
            · rw [if_pos h3] at hr
              simp at hr
              subst hr
              exact log_performance_metrics_probability t.observed_state false
            · rw [if_neg h3] at hr
              simp at hr
          · by_cases h4 : t.save_elapsed = true
            · rw [if_pos h4] at hr
              simp at hr
            · rw [if_neg h4] at hr
              simp at hr
          · exact ih hr

/-- Witness for C10: the final record of an immediately-stopped loop. -/
theorem appended_probability_uses_trials_run_witness :
    RecordProbOk (log_performance_metrics ⟨10, 20⟩ false) :=
  appended_probability_uses_trials_run.2.2.1 100 ⟨10, 20⟩ []
    (log_performance_metrics ⟨10, 20⟩ false) (by simp [logging_loop, finalActions])

end PerformanceLogger
